import Mathlib

/-!
Shallow embedding of the LoFi-Turtle playback sequencer
(`src/models/playback.rs`) and of the player session layer
(`src/audio/gapless_player.rs`).

Randomness: the Rust code shuffles `Vec<usize>` with
`rand::seq::SliceRandom::shuffle` (Fisher–Yates).  We model the random
shuffle as an explicit parameter `sh : List Nat → List Nat`; theorems that
depend on the shuffle being a permutation take the hypothesis
`(sh l).Perm l` at the relevant input.  The Rust `f32` volume is modelled
as `ℚ`; `clamp` follows Rust's ordering semantics on non-NaN values.

Stateful Rust methods (`&mut self`) are modelled as functions returning
the result together with the updated state.
-/

namespace LofiTurtle

/-- The `RepeatMode` enum from `src/models/playback.rs` (`None` is `NoneR` here,
since `None` is taken by `Option`). -/
inductive RepeatMode where
  | NoneR
  | Single
  | Playlist
deriving DecidableEq, Repr

/-- The `PlaybackState` struct from `src/models/playback.rs`.  The `VecDeque`
shuffle queue is a `List` whose head is the front. -/
structure PlaybackState where
  shuffle : Bool
  repeat_mode : RepeatMode
  current_song_index : Nat
  is_playing : Bool
  is_paused : Bool
  volume : ℚ
  shuffle_queue : List Nat
  original_order : List Nat
deriving DecidableEq, Repr

namespace PlaybackState

/-- Rust `PlaybackState::default()`. -/
def default : PlaybackState :=
  { shuffle := false
    repeat_mode := RepeatMode.NoneR
    current_song_index := 0
    is_playing := false
    is_paused := false
    volume := 7/10
    shuffle_queue := []
    original_order := [] }

/-- Rust `PlaybackState::play`. -/
def play (s : PlaybackState) : PlaybackState :=
  { s with is_playing := true, is_paused := false }

/-- Rust `PlaybackState::pause`. -/
def pause (s : PlaybackState) : PlaybackState :=
  { s with is_playing := false, is_paused := true }

/-- Rust `PlaybackState::stop`. -/
def stop (s : PlaybackState) : PlaybackState :=
  { s with is_playing := false, is_paused := false }

/-- Rust's `clamp` on ordered values (`f32::clamp` for non-NaN inputs):
`min` if below `min`, `max` if above `max`, the value itself otherwise. -/
def clampQ (v lo hi : ℚ) : ℚ :=
  if v < lo then lo else if v > hi then hi else v

/-- Rust `PlaybackState::set_volume`: `self.volume = volume.clamp(0.0, 1.0)`. -/
def set_volume (s : PlaybackState) (volume : ℚ) : PlaybackState :=
  { s with volume := clampQ volume 0 1 }

/-- Rust `PlaybackState::cycle_repeat_mode`. -/
def cycle_repeat_mode (s : PlaybackState) : PlaybackState :=
  { s with repeat_mode :=
      match s.repeat_mode with
      | RepeatMode.NoneR => RepeatMode.Single
      | RepeatMode.Single => RepeatMode.Playlist
      | RepeatMode.Playlist => RepeatMode.NoneR }

/-- Rust `PlaybackState::enable_shuffle`.  Stores `0..playlist_size` as the
original order, shuffles `0..playlist_size` with the Fisher–Yates shuffle
(modelled by `sh`), then removes the first occurrence of
`current_song_index` from the shuffled list (Rust:
`position` + `remove`, a no-op when absent — exactly `List.erase`),
and installs the result as the shuffle queue. -/
def enable_shuffle (sh : List Nat → List Nat) (s : PlaybackState)
    (playlist_size : Nat) : PlaybackState :=
  if playlist_size = 0 then s
  else
    let indices := sh (List.range playlist_size)
    { s with
      original_order := List.range playlist_size
      shuffle_queue := indices.erase s.current_song_index }

/-- Rust `PlaybackState::disable_shuffle`. -/
def disable_shuffle (s : PlaybackState) : PlaybackState :=
  { s with shuffle_queue := [], original_order := [] }

/-- Rust `PlaybackState::toggle_shuffle`. -/
def toggle_shuffle (sh : List Nat → List Nat) (s : PlaybackState)
    (playlist_size : Nat) : PlaybackState :=
  let s1 := { s with shuffle := !s.shuffle }
  if s1.shuffle then enable_shuffle sh s1 playlist_size
  else disable_shuffle s1

/-- Rust `PlaybackState::next_song_index`.  Returns the next index (if any)
together with the updated state; the Rust method mutates only the shuffle
queue / original order (via `enable_shuffle` on regeneration). -/
def next_song_index (sh : List Nat → List Nat) (s : PlaybackState)
    (playlist_size : Nat) : Option Nat × PlaybackState :=
  if playlist_size = 0 then (none, s)
  else
    match s.repeat_mode with
    | RepeatMode.Single => (some s.current_song_index, s)
    | _ =>
      -- the `RepeatMode::None | RepeatMode::Playlist` arm
      let picked : Option (Nat × PlaybackState) :=
        if s.shuffle then
          match s.shuffle_queue with
          | next :: rest => some (next, { s with shuffle_queue := rest })
          | [] =>
            -- queue empty: regenerate only when repeat mode is Playlist
            if s.repeat_mode = RepeatMode.Playlist then
              let s1 := enable_shuffle sh s playlist_size
              match s1.shuffle_queue with
              | next :: rest => some (next, { s1 with shuffle_queue := rest })
              | [] => some (0, s1)   -- `pop_front().unwrap_or(0)`
            else none                -- early `return None`
        else
          some ((s.current_song_index + 1) % playlist_size, s)
      match picked with
      | none => (none, s)
      | some (next_index, s1) =>
        if s1.repeat_mode = RepeatMode.NoneR ∧ s1.shuffle = false ∧
            next_index = 0 ∧ s1.current_song_index = playlist_size - 1 then
          (none, s1)
        else
          (some next_index, s1)

/-- Rust `PlaybackState::previous_song_index`.  The Rust source has an
`if self.shuffle` with two identical arms, kept here verbatim. -/
def previous_song_index (s : PlaybackState) (playlist_size : Nat) :
    Option Nat × PlaybackState :=
  if playlist_size = 0 then (none, s)
  else
    match s.repeat_mode with
    | RepeatMode.Single => (some s.current_song_index, s)
    | _ =>
      let prev_index :=
        if s.shuffle then
          if s.current_song_index = 0 then playlist_size - 1
          else s.current_song_index - 1
        else
          if s.current_song_index = 0 then playlist_size - 1
          else s.current_song_index - 1
      (some prev_index, s)

/-- Rust `PlaybackState::set_current_song_index`. -/
def set_current_song_index (sh : List Nat → List Nat) (s : PlaybackState)
    (index : Nat) (playlist_size : Nat) : PlaybackState :=
  let s1 := { s with current_song_index := index }
  if s1.shuffle ∧ s1.shuffle_queue = [] ∧ 0 < playlist_size then
    enable_shuffle sh s1 playlist_size
  else s1

end PlaybackState

/-- A Fisher–Yates shuffle that happens to swap the first two elements —
one of the permutations the rng can produce, used as a concrete draw. -/
def swap01 : List Nat → List Nat
  | a :: b :: t => b :: a :: t
  | l => l

/-- The session loop of `GaplessPlayer` advancing playback: call
`next_song_index`, and when it returns `Some i` commit `i` into
`current_song_index` (as `play_next_song` / `handle_song_end` do).
Returns the list of indices produced by `k` successive calls together
with the final state; stops early when the sequencer returns `None`. -/
def nextRun (sh : List Nat → List Nat) (playlist_size : Nat) :
    PlaybackState → Nat → List Nat × PlaybackState
  | s, 0 => ([], s)
  | s, k + 1 =>
    match PlaybackState.next_song_index sh s playlist_size with
    | (some i, s1) =>
      let s2 := { s1 with current_song_index := i }
      let r := nextRun sh playlist_size s2 k
      (i :: r.1, r.2)
    | (none, s1) => ([], s1)

/-!  The player session layer, from `src/audio/gapless_player.rs`.
The sink, the decoded sources and the song metadata are abstracted: a
playlist is a list of song identifiers, and the oracle
`loads : Nat → Bool` says whether the song file at a given identifier
opens and decodes successfully.  Shared `Arc<Mutex<…>>` state is modelled
by threading a `PlayerModel` through each call; a Rust function returning
`Result` is modelled as returning `Except Unit Unit` *together with* the
state, since mutations made before an early `?` return persist. -/

/-- The cross-thread state owned by `GaplessPlayer`: the sequencing state
and the currently loaded song (identifier), `None` when nothing loaded. -/
structure PlayerModel where
  playback : PlaybackState
  current_song : Option Nat
deriving DecidableEq, Repr

/-- Rust `GaplessPlayer::load_and_play_current_song`: reads
`current_song_index`, looks the song up in the playlist (silently `Ok` if
the index is out of bounds), opens and decodes the file (`Err` on
failure, before any state is touched), then appends to the sink, stores
the song as current and marks the manager playing. -/
def load_and_play_current_song (loads : Nat → Bool) (songs : List Nat)
    (p : PlayerModel) : Except Unit Unit × PlayerModel :=
  match songs[p.playback.current_song_index]? with
  | some song =>
    if loads song then
      (Except.ok (),
       { p with current_song := some song
                playback := p.playback.play })
    else
      (Except.error (), p)
  | none => (Except.ok (), p)

/-- Rust `GaplessPlayer::play_next_song`: asks the sequencer for the next
index; on `Some`, first writes it into `current_song_index`, then calls
`load_and_play_current_song` (whose failure propagates after the index
was already committed); on `None`, does nothing further. -/
def play_next_song (sh : List Nat → List Nat) (loads : Nat → Bool)
    (songs : List Nat) (p : PlayerModel) : Except Unit Unit × PlayerModel :=
  match PlaybackState.next_song_index sh p.playback songs.length with
  | (some next_index, st) =>
    load_and_play_current_song loads songs
      { p with playback := { st with current_song_index := next_index } }
  | (none, st) => (Except.ok (), { p with playback := st })

/-- Rust `GaplessPlayer::handle_song_end`: like `play_next_song`, but on
`None` (end of playlist) stops the manager and clears the current song. -/
def handle_song_end (sh : List Nat → List Nat) (loads : Nat → Bool)
    (songs : List Nat) (p : PlayerModel) : Except Unit Unit × PlayerModel :=
  match PlaybackState.next_song_index sh p.playback songs.length with
  | (some next_index, st) =>
    load_and_play_current_song loads songs
      { p with playback := { st with current_song_index := next_index } }
  | (none, st) =>
    (Except.ok (), { playback := st.stop, current_song := none })

/-- Rust `GaplessPlayer::play_previous_song`: same commit-then-load shape with
`previous_song_index`. -/
def play_previous_song (loads : Nat → Bool) (songs : List Nat)
    (p : PlayerModel) : Except Unit Unit × PlayerModel :=
  match PlaybackState.previous_song_index p.playback songs.length with
  | (some prev_index, st) =>
    load_and_play_current_song loads songs
      { p with playback := { st with current_song_index := prev_index } }
  | (none, st) => (Except.ok (), { p with playback := st })

/-- Rust `GaplessPlayer::set_volume` (the public API wrapper): the payload of
the `SetVolume` event it emits is the volume clamped to `[0, 1]`. -/
def gapless_set_volume_payload (volume : ℚ) : ℚ :=
  PlaybackState.clampQ volume 0 1

/-!  Concrete states used by witnesses and counterexamples. -/

open PlaybackState

/-- A state in the middle of a shuffle pass that has just exhausted its
queue: shuffle on, repeat = Playlist, current index 0, empty queue. -/
def shuffleExhausted : PlaybackState :=
  { PlaybackState.default with shuffle := true, repeat_mode := RepeatMode.Playlist }

/-- A state with repeat = Single on the third track. -/
def singleRepeat : PlaybackState :=
  { PlaybackState.default with repeat_mode := RepeatMode.Single, current_song_index := 2 }

/-- A session on track 0 of a two-song playlist, repeat = Playlist. -/
def sessOnFirst : PlayerModel :=
  { playback := { PlaybackState.default with repeat_mode := RepeatMode.Playlist }
    current_song := some 10 }

/-!  Helper lemmas. -/

/-- Helper: `load_and_play_current_song` itself never writes
`current_song_index` (it only reads it), whether the load succeeds,
fails, or the index is out of bounds. -/
theorem load_preserves_index (loads : Nat → Bool) (songs : List Nat) (p : PlayerModel) :
    ((load_and_play_current_song loads songs p).2).playback.current_song_index
      = p.playback.current_song_index := by
  unfold load_and_play_current_song
  split
  · split <;> rfl
  · rfl

/-- Helper: while shuffle is on, repeat is Playlist and the queue still
holds at least `k` entries, `k` advance steps pop exactly the first `k`
queue entries, in order. -/
theorem nextRun_take (sh : List Nat → List Nat) (N : Nat) (hN : N ≠ 0) :
    ∀ (k : Nat) (s : PlaybackState), s.shuffle = true →
      s.repeat_mode = RepeatMode.Playlist → k ≤ s.shuffle_queue.length →
      (nextRun sh N s k).1 = s.shuffle_queue.take k := by
  intro k
  induction k with
  | zero => intro s _ _ _; rfl
  | succ k ih =>
    intro s hsh hrep hk
    obtain ⟨sf, rm, c, b1, b2, v, q, oo⟩ := s
    simp only at hsh hrep hk
    subst hsh; subst hrep
    cases q with
    | nil => simp at hk
    | cons x rest =>
      simp only [List.length_cons, Nat.succ_le_succ_iff] at hk
      simp [nextRun, next_song_index, hN, List.take_succ_cons]
      exact ih _ rfl rfl hk

/-!  The claims. -/

/-- C1, counterexample: at playlist size 2, current index 0, shuffle on,
repeat = Playlist and an exhausted queue, the regenerated queue does NOT
contain the current index (the exclusion rule IS reapplied by
`enable_shuffle` on regeneration), and the first pick of the new pass is
track 1, not track 0.  The shuffle draw is the identity permutation. -/
theorem regeneration_keeps_exclusion_cex :
    0 ∉ (enable_shuffle (fun l => l) shuffleExhausted 2).shuffle_queue ∧
    (next_song_index (fun l => l) shuffleExhausted 2).1 = some 1 := by
  decide

/-- C1, amended: regeneration after exhaustion goes through
`enable_shuffle`, which unconditionally removes `current_song_index`
from the fresh permutation.  Hence for every state with shuffle on,
repeat = Playlist, an exhausted queue, `current_song_index < N` and
`N ≥ 2`, the regenerated queue omits the current index and the first
pick of the new pass is never the current index. -/
theorem regeneration_reapplies_exclusion (sh : List Nat → List Nat)
    (s : PlaybackState) (N : Nat)
    (hN : 2 ≤ N) (hc : s.current_song_index < N)
    (hsh : s.shuffle = true) (hrep : s.repeat_mode = RepeatMode.Playlist)
    (hq : s.shuffle_queue = [])
    (hperm : (sh (List.range N)).Perm (List.range N)) :
    s.current_song_index ∉ (enable_shuffle sh s N).shuffle_queue ∧
    ∀ i, (next_song_index sh s N).1 = some i → i ≠ s.current_song_index := by
  obtain ⟨sf, rm, c, b1, b2, v, q, oo⟩ := s
  simp only at hsh hrep hq hc ⊢
  subst hsh; subst hrep; subst hq
  have hN0 : N ≠ 0 := by omega
  have hnd : (sh (List.range N)).Nodup := hperm.nodup_iff.mpr (List.nodup_range N)
  have hmemc : c ∈ sh (List.range N) := hperm.mem_iff.mpr (List.mem_range.mpr hc)
  have hnotmem : c ∉ (sh (List.range N)).erase c := hnd.not_mem_erase
  refine ⟨by simpa [enable_shuffle, hN0] using hnotmem, ?_⟩
  intro i hi
  have hlen : ((sh (List.range N)).erase c).length = N - 1 := by
    rw [List.length_erase_of_mem hmemc, hperm.length_eq, List.length_range]
  rcases hE : (sh (List.range N)).erase c with _ | ⟨x, rest⟩
  · rw [hE] at hlen
    simp at hlen
    omega
  · have hxmem : x ∈ (sh (List.range N)).erase c := by
      rw [hE]; exact List.mem_cons_self x rest
    have hxne : x ≠ c := (hnd.mem_erase_iff.mp hxmem).1
    simp [next_song_index, enable_shuffle, hN0, hE] at hi
    omega

/-- C1, witness for the amended theorem at playlist size 2, current
index 0, identity shuffle draw. -/
theorem regeneration_reapplies_exclusion_witness :
    (2 ≤ 2 ∧ shuffleExhausted.current_song_index < 2 ∧
      ((fun l => l) (List.range 2)).Perm (List.range 2)) ∧
    (shuffleExhausted.current_song_index ∉
        (enable_shuffle (fun l => l) shuffleExhausted 2).shuffle_queue ∧
      ∀ i, (next_song_index (fun l => l) shuffleExhausted 2).1 = some i →
        i ≠ shuffleExhausted.current_song_index) :=
  ⟨⟨by decide, by decide, by decide⟩,
   regeneration_reapplies_exclusion (fun l => l) shuffleExhausted 2
     (by decide) (by decide) rfl rfl rfl (by decide)⟩

/-- C2, counterexample: at playlist size 3 with shuffle on, repeat =
Playlist and current index 0, the Fisher–Yates draw that swaps the first
two elements makes three `next_position` calls return `[1, 2, 1]`:
position 1 repeats before position 0 (the pass's starting current index)
is ever visited, so the N calls do not visit all positions exactly once. -/
theorem shuffle_pass_excludes_current_cex :
    (nextRun swap01 3 (enable_shuffle swap01 shuffleExhausted 3) 3).1 = [1, 2, 1] ∧
    ¬ ((nextRun swap01 3 (enable_shuffle swap01 shuffleExhausted 3) 3).1).Perm
        (List.range 3) := by
  decide

/-- C2, amended: a shuffle pass is fair only over the other positions:
for every N > 0, shuffle on, repeat = Playlist and current index < N,
the first N − 1 calls to `next_position` after enabling shuffle return
each position of `0..N` other than the starting current index exactly
once (a permutation of `(range N).erase current); the current index is
excluded from its own pass, and the Nth call already draws from a
regenerated queue, which can repeat an already-visited position. -/
theorem shuffle_pass_visits_rest_once (sh : List Nat → List Nat)
    (s : PlaybackState) (N : Nat)
    (hN : 0 < N) (hc : s.current_song_index < N)
    (hsh : s.shuffle = true) (hrep : s.repeat_mode = RepeatMode.Playlist)
    (hperm : (sh (List.range N)).Perm (List.range N)) :
    ((nextRun sh N (enable_shuffle sh s N) (N - 1)).1).Perm
      ((List.range N).erase s.current_song_index) := by
  have hN0 : N ≠ 0 := by omega
  have hqueue : (enable_shuffle sh s N).shuffle_queue
      = (sh (List.range N)).erase s.current_song_index := by
    simp [enable_shuffle, hN0]
  have hmemc : s.current_song_index ∈ sh (List.range N) :=
    hperm.mem_iff.mpr (List.mem_range.mpr hc)
  have hlen : ((sh (List.range N)).erase s.current_song_index).length = N - 1 := by
    rw [List.length_erase_of_mem hmemc, hperm.length_eq, List.length_range]
  have hrun := nextRun_take sh N hN0 (N - 1) (enable_shuffle sh s N)
    (by simp [enable_shuffle, hN0, hsh])
    (by simp [enable_shuffle, hN0, hrep])
    (by rw [hqueue, hlen])
  rw [hrun, hqueue, List.take_of_length_le (le_of_eq hlen)]
  exact hperm.erase _

/-- C2, witness for the amended theorem at playlist size 3, current
index 0, identity shuffle draw: the first two picks are a permutation of
`[1, 2]`. -/
theorem shuffle_pass_visits_rest_once_witness :
    (0 < 3 ∧ shuffleExhausted.current_song_index < 3 ∧
      ((fun l => l) (List.range 3)).Perm (List.range 3)) ∧
    ((nextRun (fun l => l) 3 (enable_shuffle (fun l => l) shuffleExhausted 3) (3 - 1)).1).Perm
      ((List.range 3).erase shuffleExhausted.current_song_index) :=
  ⟨⟨by decide, by decide, by decide⟩,
   shuffle_pass_visits_rest_once (fun l => l) shuffleExhausted 3
     (by decide) (by decide) rfl rfl (by decide)⟩

/-- C3, counterexample: on a two-song playlist with every load failing,
`play_next_song` returns an error, yet `current_song_index` has moved
from 0 to 1 — the index is committed although the sink never started the
new track, contradicting the claim that a failed load leaves
`current_song_index` unchanged. -/
theorem commit_precedes_load_cex :
    (play_next_song (fun l => l) (fun _ => false) [10, 20] sessOnFirst).1
      = Except.error () ∧
    ((play_next_song (fun l => l) (fun _ => false) [10, 20] sessOnFirst).2).playback.current_song_index
      = 1 ∧
    sessOnFirst.playback.current_song_index = 0 :=
  ⟨rfl, rfl, rfl⟩

/-- C3, amended: on every Next, Previous or auto-advance transition the
session commits the sequencer's index into `current_song_index` BEFORE
attempting to load the track: whenever the sequencer returns `Some i`,
the state after `play_next_song` / `handle_song_end` /
`play_previous_song` has `current_song_index = i` for every load oracle,
including ones where the load fails (the error then propagates after the
commit). -/
theorem commit_precedes_load (sh : List Nat → List Nat) (loads : Nat → Bool)
    (songs : List Nat) (p : PlayerModel) (i j : Nat)
    (h : (PlaybackState.next_song_index sh p.playback songs.length).1 = some i)
    (hp : (PlaybackState.previous_song_index p.playback songs.length).1 = some j) :
    ((play_next_song sh loads songs p).2).playback.current_song_index = i ∧
    ((handle_song_end sh loads songs p).2).playback.current_song_index = i ∧
    ((play_previous_song loads songs p).2).playback.current_song_index = j := by
  unfold play_next_song handle_song_end play_previous_song
  rcases hE : PlaybackState.next_song_index sh p.playback songs.length with ⟨r, st⟩
  rcases hF : PlaybackState.previous_song_index p.playback songs.length with ⟨r2, st2⟩
  rw [hE] at h
  rw [hF] at hp
  simp only at h hp
  subst h; subst hp
  simp [hE, hF, load_preserves_index]

/-- C3, witness for the amended theorem: two-song playlist, all loads
failing, sequencer advancing 0 → 1 (and previous 0 → 1 by wraparound);
the committed index is 1 in all three transitions. -/
theorem commit_precedes_load_witness :
    ((PlaybackState.next_song_index (fun l => l) sessOnFirst.playback 2).1 = some 1 ∧
      (PlaybackState.previous_song_index sessOnFirst.playback 2).1 = some 1) ∧
    (((play_next_song (fun l => l) (fun _ => false) [10, 20] sessOnFirst).2).playback.current_song_index = 1 ∧
      ((handle_song_end (fun l => l) (fun _ => false) [10, 20] sessOnFirst).2).playback.current_song_index = 1 ∧
      ((play_previous_song (fun _ => false) [10, 20] sessOnFirst).2).playback.current_song_index = 1) :=
  ⟨⟨rfl, rfl⟩,
   commit_precedes_load (fun l => l) (fun _ => false) [10, 20] sessOnFirst 1 1 rfl rfl⟩

/-- C4: with a non-empty playlist and repeat = Single, `next_position`
returns the current index, whatever the shuffle flag, the queue contents
and the playlist size. -/
theorem single_repeat_returns_current (sh : List Nat → List Nat)
    (s : PlaybackState) (N : Nat)
    (hN : N ≠ 0) (h : s.repeat_mode = RepeatMode.Single) :
    (next_song_index sh s N).1 = some s.current_song_index := by
  obtain ⟨sf, rm, c, b1, b2, v, q, oo⟩ := s
  simp only at h
  subst h
  simp [next_song_index, hN]

/-- C4, witness at playlist size 3, current index 2, shuffle off. -/
theorem single_repeat_returns_current_witness :
    (3 ≠ 0 ∧ singleRepeat.repeat_mode = RepeatMode.Single) ∧
    (next_song_index (fun l => l) singleRepeat 3).1 = some singleRepeat.current_song_index :=
  ⟨⟨by decide, rfl⟩, single_repeat_returns_current (fun l => l) singleRepeat 3 (by decide) rfl⟩

/-- C5: with a non-empty playlist, shuffle off and repeat ≠ Single,
`next_position` returns `(current + 1) mod N`, except that it returns
`none` exactly when repeat = None and the current index is `N - 1`. -/
theorem sequential_next_formula (sh : List Nat → List Nat)
    (s : PlaybackState) (N : Nat)
    (hN : N ≠ 0) (hsh : s.shuffle = false) (hrep : s.repeat_mode ≠ RepeatMode.Single) :
    (next_song_index sh s N).1 =
      if s.repeat_mode = RepeatMode.NoneR ∧ s.current_song_index = N - 1 then none
      else some ((s.current_song_index + 1) % N) := by
  obtain ⟨sf, rm, c, b1, b2, v, q, oo⟩ := s
  simp only at hsh hrep ⊢
  subst hsh
  cases rm with
  | Single => exact absurd rfl hrep
  | NoneR =>
    by_cases hc : c = N - 1
    · subst hc
      have hmod : (N - 1 + 1) % N = 0 := by
        rw [Nat.sub_add_cancel (Nat.one_le_iff_ne_zero.mpr hN), Nat.mod_self]
      simp [next_song_index, hN, hmod]
    · simp [next_song_index, hN, hc]
  | Playlist => simp [next_song_index, hN]

/-- C5, witness: at the default state (repeat = None, current = 0) on a
two-song playlist, the guard does not fire and the result is track 1. -/
theorem sequential_next_formula_witness :
    (2 ≠ 0 ∧ PlaybackState.default.shuffle = false ∧
      PlaybackState.default.repeat_mode ≠ RepeatMode.Single) ∧
    (next_song_index (fun l => l) PlaybackState.default 2).1 =
      (if PlaybackState.default.repeat_mode = RepeatMode.NoneR ∧
          PlaybackState.default.current_song_index = 2 - 1 then none
       else some ((PlaybackState.default.current_song_index + 1) % 2)) :=
  ⟨⟨by decide, rfl, by decide⟩,
   sequential_next_formula (fun l => l) PlaybackState.default 2 (by decide) rfl (by decide)⟩

/-- C6: on an empty playlist both `next_position` and
`previous_position` return `none`, for every state and mode. -/
theorem empty_playlist_returns_none (sh : List Nat → List Nat) (s : PlaybackState) :
    (next_song_index sh s 0).1 = none ∧ (previous_song_index s 0).1 = none := by
  constructor <;> rfl

/-- C7: with a non-empty playlist, `previous_position` returns the
current index when repeat = Single, and otherwise `N - 1` at index 0 and
`current - 1` elsewhere; the formula does not mention the shuffle flag,
so the result is the same with shuffle on or off. -/
theorem previous_index_formula (s : PlaybackState) (N : Nat) (hN : N ≠ 0) :
    (previous_song_index s N).1 =
      some (if s.repeat_mode = RepeatMode.Single then s.current_song_index
            else if s.current_song_index = 0 then N - 1 else s.current_song_index - 1) := by
  obtain ⟨sf, rm, c, b1, b2, v, q, oo⟩ := s
  cases rm <;> cases sf <;> simp [previous_song_index, hN]

/-- C7, witness at the default state on a two-song playlist: wraps to
track 1. -/
theorem previous_index_formula_witness :
    2 ≠ 0 ∧
    (previous_song_index PlaybackState.default 2).1 =
      some (if PlaybackState.default.repeat_mode = RepeatMode.Single then
              PlaybackState.default.current_song_index
            else if PlaybackState.default.current_song_index = 0 then 2 - 1
            else PlaybackState.default.current_song_index - 1) :=
  ⟨by decide, previous_index_formula PlaybackState.default 2 (by decide)⟩

/-- C8: `set_volume` stores the input clamped to `[0, 1]`: `-0.3` is
stored as `0`, `1.7` as `1`, the stored volume always lies in `[0, 1]`,
and the `SetVolume` event payload emitted by `GaplessPlayer::set_volume`
is clamped the same way. -/
theorem set_volume_clamps (s : PlaybackState) (v : ℚ) :
    (set_volume s v).volume = clampQ v 0 1 ∧
    (set_volume s (-3/10)).volume = 0 ∧
    (set_volume s (17/10)).volume = 1 ∧
    0 ≤ (set_volume s v).volume ∧ (set_volume s v).volume ≤ 1 ∧
    gapless_set_volume_payload v = clampQ v 0 1 := by
  refine ⟨rfl, ?_, ?_, ?_, ?_, rfl⟩
  · norm_num [set_volume, clampQ]
  · norm_num [set_volume, clampQ]
  · simp only [set_volume, clampQ]
    split_ifs <;> linarith
  · simp only [set_volume, clampQ]
    split_ifs <;> linarith

/-- C9: `next_song_index` never writes `current_song_index` — nor the
shuffle flag, the repeat mode, the playing/paused flags or the volume;
only the shuffle queue and the original order may change.  Committing
the returned index is left to the caller. -/
theorem next_song_index_frame (sh : List Nat → List Nat) (s : PlaybackState) (N : Nat) :
    ((next_song_index sh s N).2).current_song_index = s.current_song_index ∧
    ((next_song_index sh s N).2).shuffle = s.shuffle ∧
    ((next_song_index sh s N).2).repeat_mode = s.repeat_mode ∧
    ((next_song_index sh s N).2).is_playing = s.is_playing ∧
    ((next_song_index sh s N).2).is_paused = s.is_paused ∧
    ((next_song_index sh s N).2).volume = s.volume := by
  obtain ⟨sf, rm, c, b1, b2, v, q, oo⟩ := s
  by_cases hN : N = 0
  · subst hN
    exact ⟨rfl, rfl, rfl, rfl, rfl, rfl⟩
  · rcases hE : (sh (List.range N)).erase c with _ | ⟨x, rest⟩ <;>
      cases rm <;> cases sf <;> cases q <;>
      simp [next_song_index, enable_shuffle, hN, hE] <;>
      split <;> simp

/-- C10: if the current index is below the playlist size and every queue
entry is below the playlist size, every index returned by
`next_song_index` or `previous_song_index` is below the playlist size;
and, as the claim notes, without the bound on the current index the
conclusion fails for `previous_song_index` (current 5 on a one-song
playlist yields 4). -/
theorem returned_index_lt_size (sh : List Nat → List Nat)
    (s : PlaybackState) (N : Nat)
    (hN : 0 < N) (hc : s.current_song_index < N)
    (hq : ∀ x ∈ s.shuffle_queue, x < N)
    (hperm : (sh (List.range N)).Perm (List.range N)) :
    (∀ i, (next_song_index sh s N).1 = some i → i < N) ∧
    (∀ i, (previous_song_index s N).1 = some i → i < N) ∧
    (previous_song_index { PlaybackState.default with current_song_index := 5 } 1).1
      = some 4 := by
  have hN0 : N ≠ 0 := by omega
  obtain ⟨sf, rm, c, b1, b2, v, q, oo⟩ := s
  simp only at hc hq
  refine ⟨?_, ?_, by decide⟩
  · intro i hi
    cases rm with
    | Single =>
      simp [next_song_index, hN0] at hi
      omega
    | NoneR =>
      cases sf with
      | false =>
        simp [next_song_index, hN0] at hi
        have hmod := Nat.mod_lt (c + 1) hN
        split at hi <;> simp_all
      | true =>
        cases q with
        | nil => simp [next_song_index, hN0] at hi
        | cons x rest =>
          simp [next_song_index, hN0] at hi
          have hx := hq x (List.mem_cons_self x rest)
          omega
    | Playlist =>
      cases sf with
      | false =>
        simp [next_song_index, hN0] at hi
        have := Nat.mod_lt (c + 1) hN
        omega
      | true =>
        cases q with
        | cons x rest =>
          simp [next_song_index, hN0] at hi
          have hx := hq x (List.mem_cons_self x rest)
          omega
        | nil =>
          rcases hE : (sh (List.range N)).erase c with _ | ⟨x, rest⟩ <;>
            simp [next_song_index, enable_shuffle, hN0, hE] at hi
          · omega
          · have hx : x < N := by
              have hmem : x ∈ sh (List.range N) :=
                List.mem_of_mem_erase (by rw [hE]; exact List.mem_cons_self x rest)
              exact List.mem_range.mp (hperm.mem_iff.mp hmem)
            omega
  · intro i hi
    cases rm <;> cases sf <;> simp [previous_song_index, hN0] at hi <;>
      (try split at hi) <;> omega

/-- C10, witness at the default state on a one-song playlist. -/
theorem returned_index_lt_size_witness :
    (0 < 1 ∧ PlaybackState.default.current_song_index < 1 ∧
      (∀ x ∈ PlaybackState.default.shuffle_queue, x < 1) ∧
      ((fun l => l) (List.range 1)).Perm (List.range 1)) ∧
    ((∀ i, (next_song_index (fun l => l) PlaybackState.default 1).1 = some i → i < 1) ∧
      (∀ i, (previous_song_index PlaybackState.default 1).1 = some i → i < 1) ∧
      (previous_song_index { PlaybackState.default with current_song_index := 5 } 1).1
        = some 4) :=
  ⟨⟨by decide, by decide, by decide, by decide⟩,
   returned_index_lt_size (fun l => l) PlaybackState.default 1
     (by decide) (by decide) (by decide) (by decide)⟩

end LofiTurtle
